import Mathlib

/-!
Verification development for the `vesting` program
(`src/anchor/programs/vesting/src/lib.rs`).

The program arithmetic works on Rust `i64` values.  We embed `i64` as `Int`
together with the explicit bounds `i64Min`/`i64Max` and model each Rust
operation used by the source:

* `saturating_sub` clamps the mathematical difference into the `i64` range
  (`satSub64`);
* `checked_mul` returns `none` when the mathematical product leaves the
  `i64` range (`checked_mul`);
* `/` on `i64` truncates toward zero and aborts (panics) on division by
  zero or on `i64::MIN / -1` (`rustDivI64`);
* `as u64` reduces modulo `2 ^ 64` (`toU64`);
* `+=` wraps modulo `2 ^ 64` into the signed range (`wrapI64`), the
  release-mode Rust semantics of unchecked `i64` addition.

The external SPL token transfer (a CPI) is modelled by a boolean oracle
`transferOk`: the core never inspects the transfer result beyond
propagating its failure with `?`.  A failed instruction reverts all state,
so the post-state of a failed call is the original account; `stateAfter`
makes this explicit.

`EmployeeAccount` keeps exactly the numeric fields of the source struct;
the `beneficiary` / `vesting_account` public keys and the `bump` byte play
no part in the arithmetic claims and are omitted.
-/

def i64Min : Int := -(2 ^ 63)

def i64Max : Int := 2 ^ 63 - 1

/-- Membership of an integer in the representable `i64` range. -/
def inI64 (x : Int) : Prop := i64Min ≤ x ∧ x ≤ i64Max

instance (x : Int) : Decidable (inI64 x) :=
  inferInstanceAs (Decidable (i64Min ≤ x ∧ x ≤ i64Max))

/-- Rust `i64::saturating_sub`: the difference clamped into the `i64` range. -/
def satSub64 (a b : Int) : Int := max i64Min (min i64Max (a - b))

/-- Rust `i64::checked_mul`: `none` when the product leaves the `i64` range. -/
def checked_mul (a b : Int) : Option Int :=
  if inI64 (a * b) then some (a * b) else none

/-- Rust `i64` division: truncation toward zero; division by zero and
`i64::MIN / -1` abort the program (modelled by `none`). -/
def rustDivI64 (a b : Int) : Option Int :=
  if b = 0 ∨ (a = i64Min ∧ b = -1) then none else some (a.tdiv b)

/-- Rust `as u64` cast of an `i64` value: reduction modulo `2 ^ 64`. -/
def toU64 (x : Int) : Nat := (x % 2 ^ 64).toNat

/-- Rust release-mode `i64` addition result (two-complement wrap-around),
used for the `total_withdrawn += claimable_amount` update. -/
def wrapI64 (x : Int) : Int := (x + 2 ^ 63) % 2 ^ 64 - 2 ^ 63

/-- Error enum of the program (`#[error_code] pub enum ErrorCode`). -/
inductive ErrorCode where
  | ClaimNotAvailableYet
  | NothingToClaim
  | InvalidVestingPeriod
  | CalculationOverflow
deriving DecidableEq, Repr

/-- Every way `claim_tokens` can fail: a returned `ErrorCode`, an abort of
the whole instruction from an arithmetic panic inside the division, or a
failure of the external token transfer propagated by `?`. -/
inductive ClaimErr where
  | code (e : ErrorCode)
  | divAbort
  | transferFailed
deriving DecidableEq, Repr

/-- Numeric state of `EmployeeAccount` (`lib.rs` lines 249-260); the two
public keys and the bump byte are omitted as irrelevant to arithmetic. -/
structure EmployeeAccount where
  start_time : Int
  end_time : Int
  total_amount : Int
  total_withdrawn : Int
  cliff_time : Int
deriving DecidableEq, Repr

/-- The `create_employee_vesting` instruction (`lib.rs` lines 30-49):
initializes the account with `total_withdrawn = 0`. -/
def create_employee_vesting (start_time end_time total_amount cliff_time : Int) :
    EmployeeAccount :=
  { start_time := start_time
    end_time := end_time
    total_amount := total_amount
    total_withdrawn := 0
    cliff_time := cliff_time }

/-- The `vested_amount` computation of `claim_tokens` (`lib.rs` lines
88-102): full amount once `now >= end_time`, otherwise the checked product
`total_amount * time_since_start` divided by `total_vesting_time`, where
`time_since_start = now.saturating_sub(start_time)` (line 81) and
`total_vesting_time = end_time.saturating_sub(start_time)` (line 82). -/
def vested_amount (start_time end_time total_amount now : Int) : Except ClaimErr Int :=
  if end_time ≤ now then Except.ok total_amount
  else
    match checked_mul total_amount (satSub64 now start_time) with
    | some product =>
        match rustDivI64 product (satSub64 end_time start_time) with
        | some q => Except.ok q
        | none => Except.error ClaimErr.divAbort
    | none => Except.error (ClaimErr.code ErrorCode.CalculationOverflow)

/-- Line 105 of the source: `vested_amount.saturating_sub(total_withdrawn)`. -/
def claimable_amount (vested total_withdrawn : Int) : Int :=
  satSub64 vested total_withdrawn

/-- The `claim_tokens` instruction (`lib.rs` lines 51-139).  `now` is the
clock value; `transferOk` is the outcome of the external token transfer.
On success it returns the updated account and the `u64` amount passed to
`transfer_checked`. -/
def claim_tokens (acc : EmployeeAccount) (now : Int) (transferOk : Bool) :
    Except ClaimErr (EmployeeAccount × Nat) :=
  if now < acc.cliff_time then
    Except.error (ClaimErr.code ErrorCode.ClaimNotAvailableYet)
  else if satSub64 acc.end_time acc.start_time = 0 then
    Except.error (ClaimErr.code ErrorCode.InvalidVestingPeriod)
  else
    match vested_amount acc.start_time acc.end_time acc.total_amount now with
    | Except.error e => Except.error e
    | Except.ok vested =>
        if claimable_amount vested acc.total_withdrawn = 0 then
          Except.error (ClaimErr.code ErrorCode.NothingToClaim)
        else if transferOk then
          Except.ok
            ({ acc with
                total_withdrawn :=
                  wrapI64 (acc.total_withdrawn + claimable_amount vested acc.total_withdrawn) },
              toU64 (claimable_amount vested acc.total_withdrawn))
        else Except.error ClaimErr.transferFailed

/-- Post-state of one `claim_tokens` call: a failed Solana instruction
reverts every account write, so errors leave the account unchanged. -/
def stateAfter (acc : EmployeeAccount) (now : Int) (transferOk : Bool) : EmployeeAccount :=
  match claim_tokens acc now transferOk with
  | Except.ok p => p.1
  | Except.error _ => acc

/-- Sequential execution of a list of claims, each given by a clock value
and the outcome of its external transfer. -/
def runClaims (acc : EmployeeAccount) : List (Int × Bool) → EmployeeAccount
  | [] => acc
  | (t, b) :: rest => runClaims (stateAfter acc t b) rest

/-- Well-formedness of the immutable grant parameters: representable in
`i64`, nonnegative grant, and a cliff no earlier than the vesting start. -/
def WFparams (acc : EmployeeAccount) : Prop :=
  inI64 acc.start_time ∧ inI64 acc.end_time ∧ inI64 acc.total_amount ∧
  inI64 acc.cliff_time ∧ 0 ≤ acc.total_amount ∧ acc.start_time ≤ acc.cliff_time

/-- Ledger invariant carried between claims: `total_withdrawn` is
nonnegative, bounded by `total_amount`, and bounded by the vested amount at
every permitted future time (`t0` is a lower bound on the clock). -/
def InvP (acc : EmployeeAccount) (t0 : Int) : Prop :=
  0 ≤ acc.total_withdrawn ∧ acc.total_withdrawn ≤ acc.total_amount ∧
  ∀ t v, t0 ≤ t → acc.cliff_time ≤ t →
    vested_amount acc.start_time acc.end_time acc.total_amount t = Except.ok v →
    acc.total_withdrawn ≤ v

lemma i64Min_nonpos : i64Min ≤ 0 := by decide

lemma i64Max_pos : (0 : Int) < i64Max := by decide

lemma i64Min_le_satSub64 (a b : Int) : i64Min ≤ satSub64 a b :=
  le_max_left _ _

lemma satSub64_le_i64Max (a b : Int) : satSub64 a b ≤ i64Max :=
  max_le (by decide) (min_le_left _ _)

lemma inI64_satSub64 (a b : Int) : inI64 (satSub64 a b) :=
  ⟨i64Min_le_satSub64 a b, satSub64_le_i64Max a b⟩

lemma satSub64_eq {a b : Int} (h1 : i64Min ≤ a - b) (h2 : a - b ≤ i64Max) :
    satSub64 a b = a - b := by
  unfold satSub64
  rw [min_eq_right h2, max_eq_right h1]

lemma satSub64_nonneg {a b : Int} (h : b ≤ a) : 0 ≤ satSub64 a b := by
  unfold satSub64
  exact le_max_of_le_right (le_min (le_of_lt i64Max_pos) (by omega))

lemma satSub64_pos {a b : Int} (h : b < a) : 0 < satSub64 a b := by
  unfold satSub64
  exact lt_max_of_lt_right (lt_min i64Max_pos (by omega))

lemma satSub64_neg {a b : Int} (ha : inI64 a) (hb : inI64 b) (h : a < b) :
    satSub64 a b < 0 := by
  rcases ha with ⟨ha1, ha2⟩
  rcases hb with ⟨hb1, hb2⟩
  unfold satSub64
  have hmin : min i64Max (a - b) = a - b := min_eq_right (by unfold i64Max at *; omega)
  rw [hmin]
  have : i64Min < 0 := by decide
  exact max_lt this (by omega)

lemma satSub64_nonneg_iff {a b : Int} (ha : inI64 a) (hb : inI64 b) :
    0 ≤ satSub64 a b ↔ b ≤ a := by
  constructor
  · intro h
    by_contra hab
    exact absurd h (not_le.mpr (satSub64_neg ha hb (by omega)))
  · exact satSub64_nonneg

lemma satSub64_self (a : Int) : satSub64 a a = 0 := by
  have h : satSub64 a a = a - a :=
    satSub64_eq (by simp; decide) (by simp; decide)
  simp at h
  exact h

lemma satSub64_eq_zero_iff {a b : Int} : satSub64 a b = 0 ↔ a = b := by
  constructor
  · intro h
    by_contra hne
    rcases lt_or_gt_of_ne hne with hlt | hgt
    · have hle : min i64Max (a - b) ≤ a - b := min_le_right _ _
      have : satSub64 a b < 0 ∨ satSub64 a b = i64Min ∨ 0 < satSub64 a b := by
        unfold satSub64 i64Min i64Max at *
        omega
      rcases this with hneg | hmin | hpos
      · omega
      · rw [h] at hmin
        exact absurd hmin (by decide)
      · omega
    · exact absurd h (ne_of_gt (satSub64_pos hgt))
  · intro h
    rw [h, satSub64_self]

lemma satSub64_mono_left {a a' b : Int} (h : a ≤ a') : satSub64 a b ≤ satSub64 a' b := by
  unfold satSub64
  exact max_le_max (le_refl _) (min_le_min (le_refl _) (by omega))

lemma wrapI64_eq {x : Int} (h : inI64 x) : wrapI64 x = x := by
  rcases h with ⟨h1, h2⟩
  unfold wrapI64
  rw [Int.emod_eq_of_lt (by unfold i64Min at h1; omega)
    (by unfold i64Max at h2; omega)]
  omega

lemma checked_mul_of_inI64 {a b : Int} (h : inI64 (a * b)) :
    checked_mul a b = some (a * b) := by
  unfold checked_mul
  rw [if_pos h]

lemma checked_mul_of_not_inI64 {a b : Int} (h : ¬ inI64 (a * b)) :
    checked_mul a b = none := by
  unfold checked_mul
  rw [if_neg h]

lemma rustDivI64_of_pos {a b : Int} (hb : 0 < b) : rustDivI64 a b = some (a.tdiv b) := by
  unfold rustDivI64
  rw [if_neg]
  rintro (h | ⟨-, h⟩) <;> omega

lemma vested_amount_full {s e tot t : Int} (h : e ≤ t) :
    vested_amount s e tot t = Except.ok tot := by
  unfold vested_amount
  rw [if_pos h]

lemma vested_amount_overflow {s e tot t : Int} (h : ¬ e ≤ t)
    (hm : ¬ inI64 (tot * satSub64 t s)) :
    vested_amount s e tot t = Except.error (ClaimErr.code ErrorCode.CalculationOverflow) := by
  unfold vested_amount
  rw [if_neg h, checked_mul_of_not_inI64 hm]

lemma vested_amount_div {s e tot t : Int} (h : ¬ e ≤ t)
    (hm : inI64 (tot * satSub64 t s))
    (hd : ¬ (satSub64 e s = 0 ∨ (tot * satSub64 t s = i64Min ∧ satSub64 e s = -1))) :
    vested_amount s e tot t = Except.ok ((tot * satSub64 t s).tdiv (satSub64 e s)) := by
  unfold vested_amount rustDivI64
  rw [if_neg h, checked_mul_of_inI64 hm]
  dsimp only
  rw [if_neg hd]

lemma vested_amount_abort {s e tot t : Int} (h : ¬ e ≤ t)
    (hm : inI64 (tot * satSub64 t s))
    (hd : satSub64 e s = 0 ∨ (tot * satSub64 t s = i64Min ∧ satSub64 e s = -1)) :
    vested_amount s e tot t = Except.error ClaimErr.divAbort := by
  unfold vested_amount rustDivI64
  rw [if_neg h, checked_mul_of_inI64 hm]
  dsimp only
  rw [if_pos hd]

lemma vested_bounds {s e tot t v : Int} (h0 : 0 ≤ tot) (hst : s ≤ t)
    (hv : vested_amount s e tot t = Except.ok v) : 0 ≤ v ∧ v ≤ tot := by
  by_cases he : e ≤ t
  · rw [vested_amount_full he] at hv
    injection hv with h
    subst h
    exact ⟨h0, le_refl _⟩
  · have htlt : t < e := not_le.mp he
    have hse : s < e := lt_of_le_of_lt hst htlt
    have htvt : 0 < satSub64 e s := satSub64_pos hse
    have htss : 0 ≤ satSub64 t s := satSub64_nonneg hst
    by_cases hm : inI64 (tot * satSub64 t s)
    · rw [vested_amount_div he hm (by rintro (hh | ⟨-, hh⟩) <;> omega)] at hv
      injection hv with h
      subst h
      rw [Int.tdiv_eq_ediv (mul_nonneg h0 htss) (le_of_lt htvt)]
      refine ⟨Int.ediv_nonneg (mul_nonneg h0 htss) (le_of_lt htvt), ?_⟩
      have hle : tot * satSub64 t s ≤ tot * satSub64 e s :=
        mul_le_mul_of_nonneg_left (satSub64_mono_left (le_of_lt htlt)) h0
      calc tot * satSub64 t s / satSub64 e s
          ≤ tot * satSub64 e s / satSub64 e s := Int.ediv_le_ediv htvt hle
        _ = tot := Int.mul_ediv_cancel tot (ne_of_gt htvt)
    · rw [vested_amount_overflow he hm] at hv
      exact Except.noConfusion hv

lemma vested_mono {s e tot t t' v v' : Int} (h0 : 0 ≤ tot) (hst : s ≤ t) (htt : t ≤ t')
    (hv : vested_amount s e tot t = Except.ok v)
    (hv' : vested_amount s e tot t' = Except.ok v') : v ≤ v' := by
  by_cases he' : e ≤ t'
  · rw [vested_amount_full he'] at hv'
    injection hv' with h
    subst h
    exact (vested_bounds h0 hst hv).2
  · have ht'e : t' < e := not_le.mp he'
    have he : ¬ e ≤ t := by omega
    have hse : s < e := by omega
    have htvt : 0 < satSub64 e s := satSub64_pos hse
    have htss : 0 ≤ satSub64 t s := satSub64_nonneg hst
    by_cases hm : inI64 (tot * satSub64 t s)
    swap
    · rw [vested_amount_overflow he hm] at hv
      exact Except.noConfusion hv
    by_cases hm' : inI64 (tot * satSub64 t' s)
    swap
    · rw [vested_amount_overflow he' hm'] at hv'
      exact Except.noConfusion hv'
    rw [vested_amount_div he hm (by rintro (hh | ⟨-, hh⟩) <;> omega)] at hv
    rw [vested_amount_div he' hm' (by rintro (hh | ⟨-, hh⟩) <;> omega)] at hv'
    injection hv with h
    subst h
    injection hv' with h'
    subst h'
    rw [Int.tdiv_eq_ediv (mul_nonneg h0 htss) (le_of_lt htvt),
      Int.tdiv_eq_ediv (mul_nonneg h0 (satSub64_nonneg (le_trans hst htt))) (le_of_lt htvt)]
    exact Int.ediv_le_ediv htvt (mul_le_mul_of_nonneg_left (satSub64_mono_left htt) h0)

lemma stateAfter_spec (acc : EmployeeAccount) (now : Int) (b : Bool) :
    stateAfter acc now b = acc ∨
    (¬ now < acc.cliff_time ∧ b = true ∧
      ∃ v, vested_amount acc.start_time acc.end_time acc.total_amount now = Except.ok v ∧
        claimable_amount v acc.total_withdrawn ≠ 0 ∧
        stateAfter acc now b =
          { acc with total_withdrawn :=
              wrapI64 (acc.total_withdrawn + claimable_amount v acc.total_withdrawn) }) := by
  unfold stateAfter claim_tokens
  by_cases h1 : now < acc.cliff_time
  · rw [if_pos h1]
    exact Or.inl rfl
  · rw [if_neg h1]
    by_cases h2 : satSub64 acc.end_time acc.start_time = 0
    · rw [if_pos h2]
      exact Or.inl rfl
    · rw [if_neg h2]
      cases hv : vested_amount acc.start_time acc.end_time acc.total_amount now with
      | error e => exact Or.inl rfl
      | ok v =>
        dsimp only
        by_cases h3 : claimable_amount v acc.total_withdrawn = 0
        · rw [if_pos h3]
          exact Or.inl rfl
        · rw [if_neg h3]
          cases b with
          | false => exact Or.inl rfl
          | true => exact Or.inr ⟨h1, rfl, v, rfl, h3, rfl⟩

lemma stateAfter_params (acc : EmployeeAccount) (now : Int) (b : Bool) :
    (stateAfter acc now b).start_time = acc.start_time ∧
    (stateAfter acc now b).end_time = acc.end_time ∧
    (stateAfter acc now b).total_amount = acc.total_amount ∧
    (stateAfter acc now b).cliff_time = acc.cliff_time := by
  rcases stateAfter_spec acc now b with h | ⟨-, -, v, -, -, h⟩ <;>
    rw [h] <;> exact ⟨rfl, rfl, rfl, rfl⟩

lemma InvP_mono {acc : EmployeeAccount} {t0 t1 : Int} (h : InvP acc t0) (h01 : t0 ≤ t1) :
    InvP acc t1 :=
  ⟨h.1, h.2.1, fun t v h1t hct hv => h.2.2 t v (le_trans h01 h1t) hct hv⟩

lemma InvP_create (s e tot c : Int) (h0 : 0 ≤ tot) (hsc : s ≤ c) (t0 : Int) :
    InvP (create_employee_vesting s e tot c) t0 := by
  refine ⟨le_refl 0, h0, fun t v _ hct hv => ?_⟩
  exact (vested_bounds h0 (le_trans hsc hct) hv).1

lemma step_preserves {acc : EmployeeAccount} {t0 t : Int} {b : Bool}
    (hWF : WFparams acc) (hInv : InvP acc t0) (h0t : t0 ≤ t) :
    acc.total_withdrawn ≤ (stateAfter acc t b).total_withdrawn ∧
    InvP (stateAfter acc t b) t := by
  obtain ⟨hs, he, htot, hc, h0, hsc⟩ := hWF
  rcases stateAfter_spec acc t b with hsame | ⟨hcliff, -, v, hv, hcl, heq⟩
  · rw [hsame]
    exact ⟨le_refl _, InvP_mono hInv h0t⟩
  · have hct : acc.cliff_time ≤ t := not_lt.mp hcliff
    have hst : acc.start_time ≤ t := le_trans hsc hct
    have hle : acc.total_withdrawn ≤ v := hInv.2.2 t v h0t hct hv
    have hbnd := vested_bounds h0 hst hv
    have hclaim : claimable_amount v acc.total_withdrawn = v - acc.total_withdrawn := by
      unfold claimable_amount
      exact satSub64_eq (by have := i64Min_nonpos; omega)
        (by have := htot.2; have := hInv.1; omega)
    have hw : (stateAfter acc t b).total_withdrawn = v := by
      rw [heq]
      show wrapI64 (acc.total_withdrawn + claimable_amount v acc.total_withdrawn) = v
      rw [hclaim]
      have hxv : acc.total_withdrawn + (v - acc.total_withdrawn) = v := by ring
      rw [hxv]
      exact wrapI64_eq ⟨by have := i64Min_nonpos; omega, le_trans hbnd.2 htot.2⟩
    obtain ⟨hps, hpe, hptot, hpc⟩ := stateAfter_params acc t b
    constructor
    · rw [hw]
      exact hle
    · refine ⟨?_, ?_, ?_⟩
      · rw [hw]
        exact hbnd.1
      · rw [hw, hptot]
        exact hbnd.2
      · intro t' v' htt' hct' hv'
        rw [hw]
        rw [hps, hpe, hptot] at hv'
        exact vested_mono h0 hst htt' hv
          (by rw [hpc] at hct'; exact hv')

lemma WFparams_stateAfter {acc : EmployeeAccount} (hWF : WFparams acc) (t : Int) (b : Bool) :
    WFparams (stateAfter acc t b) := by
  obtain ⟨hps, hpe, hptot, hpc⟩ := stateAfter_params acc t b
  unfold WFparams
  rw [hps, hpe, hptot, hpc]
  exact hWF

lemma runClaims_aux (evs : List (Int × Bool)) :
    ∀ (acc : EmployeeAccount) (t0 : Int), WFparams acc → InvP acc t0 →
      List.Chain (· ≤ ·) t0 (evs.map Prod.fst) →
      ∀ n : Nat,
        0 ≤ (runClaims acc (evs.take n)).total_withdrawn ∧
        (runClaims acc (evs.take n)).total_withdrawn ≤ acc.total_amount ∧
        (runClaims acc (evs.take n)).total_withdrawn ≤
          (runClaims acc (evs.take (n + 1))).total_withdrawn ∧
        ∀ t v, (∀ x ∈ (evs.take n).map Prod.fst, x ≤ t) → t0 ≤ t → acc.cliff_time ≤ t →
          vested_amount acc.start_time acc.end_time acc.total_amount t = Except.ok v →
          (runClaims acc (evs.take n)).total_withdrawn ≤ v := by
  induction evs with
  | nil =>
    intro acc t0 hWF hInv hchain n
    simp only [List.take_nil, runClaims]
    exact ⟨hInv.1, hInv.2.1, le_refl _,
      fun t v _ h0t hct hv => hInv.2.2 t v h0t hct hv⟩
  | cons p rest ih =>
    intro acc t0 hWF hInv hchain n
    obtain ⟨t1, b1⟩ := p
    rw [List.map_cons] at hchain
    have h01 : t0 ≤ t1 := (List.chain_cons.mp hchain).1
    have hch1 : List.Chain (· ≤ ·) t1 (rest.map Prod.fst) := (List.chain_cons.mp hchain).2
    have hstep := step_preserves (b := b1) hWF hInv h01
    have hWF' := WFparams_stateAfter hWF t1 b1
    obtain ⟨hps, hpe, hptot, hpc⟩ := stateAfter_params acc t1 b1
    cases n with
    | zero =>
      simp only [List.take_zero, List.take_succ_cons, List.take_nil, runClaims]
      exact ⟨hInv.1, hInv.2.1, hstep.1,
        fun t v _ h0t hct hv => hInv.2.2 t v h0t hct hv⟩
    | succ n =>
      have hmain := ih (stateAfter acc t1 b1) t1 hWF' hstep.2 hch1 n
      simp only [List.take_succ_cons, runClaims, List.map_cons]
      refine ⟨hmain.1, ?_, hmain.2.2.1, ?_⟩
      · rw [← hptot]
        exact hmain.2.1
      · intro t v hmem h0t hct hv
        refine hmain.2.2.2 t v ?_ ?_ ?_ ?_
        · intro x hx
          exact hmem x (List.mem_cons_of_mem _ hx)
        · exact hmem t1 (List.mem_cons_self _ _)
        · rw [hpc]
          exact hct
        · rw [hps, hpe, hptot]
          exact hv

lemma claim_tokens_ok {acc : EmployeeAccount} {now : Int} {b : Bool}
    {acc2 : EmployeeAccount} {amt : Nat}
    (h : claim_tokens acc now b = Except.ok (acc2, amt)) :
    ¬ now < acc.cliff_time ∧ satSub64 acc.end_time acc.start_time ≠ 0 ∧ b = true ∧
    ∃ v, vested_amount acc.start_time acc.end_time acc.total_amount now = Except.ok v ∧
      claimable_amount v acc.total_withdrawn ≠ 0 ∧
      acc2 = { acc with total_withdrawn := wrapI64 (acc.total_withdrawn + claimable_amount v acc.total_withdrawn) } ∧
      amt = toU64 (claimable_amount v acc.total_withdrawn) := by
  unfold claim_tokens at h
  by_cases h1 : now < acc.cliff_time
  · rw [if_pos h1] at h
    exact Except.noConfusion h
  rw [if_neg h1] at h
  by_cases h2 : satSub64 acc.end_time acc.start_time = 0
  · rw [if_pos h2] at h
    exact Except.noConfusion h
  rw [if_neg h2] at h
  cases hv : vested_amount acc.start_time acc.end_time acc.total_amount now with
  | error e =>
    rw [hv] at h
    exact Except.noConfusion h
  | ok v =>
    rw [hv] at h
    dsimp only at h
    by_cases h3 : claimable_amount v acc.total_withdrawn = 0
    · rw [if_pos h3] at h
      exact Except.noConfusion h
    rw [if_neg h3] at h
    cases b with
    | false =>
      rw [if_neg (by decide : ¬ (false = true))] at h
      exact Except.noConfusion h
    | true =>
      rw [if_pos rfl] at h
      refine ⟨h1, h2, rfl, v, rfl, h3, ?_, ?_⟩
      · injection h with hp
        exact (Prod.ext_iff.mp hp).1.symm
      · injection h with hp
        exact (Prod.ext_iff.mp hp).2.symm

/-- C4: for every schedule and every `now` with `now < cliff_time`,
`claim_tokens` fails with `ClaimNotAvailableYet` and leaves the schedule
state (in particular `total_withdrawn`) unchanged. -/
theorem c4_pre_cliff_rejection (acc : EmployeeAccount) (now : Int) (transferOk : Bool)
    (h : now < acc.cliff_time) :
    claim_tokens acc now transferOk =
      Except.error (ClaimErr.code ErrorCode.ClaimNotAvailableYet) ∧
    stateAfter acc now transferOk = acc := by
  have hc : claim_tokens acc now transferOk =
      Except.error (ClaimErr.code ErrorCode.ClaimNotAvailableYet) := by
    unfold claim_tokens
    rw [if_pos h]
  refine ⟨hc, ?_⟩
  unfold stateAfter
  rw [hc]

/-- Witness for C4 at the concrete schedule `(0, 100, 1000, cliff 10)` and
`now = 5`. -/
theorem c4_witness :
    claim_tokens ⟨0, 100, 1000, 0, 10⟩ 5 true =
      Except.error (ClaimErr.code ErrorCode.ClaimNotAvailableYet) ∧
    stateAfter ⟨0, 100, 1000, 0, 10⟩ 5 true = ⟨0, 100, 1000, 0, 10⟩ :=
  c4_pre_cliff_rejection ⟨0, 100, 1000, 0, 10⟩ 5 true (by decide)

/-- C3 (amended): a schedule with `start_time = end_time` fails with
`InvalidVestingPeriod` for every `now` that is not before the cliff; when
`now < cliff_time` the earlier cliff check fires first (see the
counterexample). -/
theorem c3_degenerate_schedule (acc : EmployeeAccount) (now : Int) (transferOk : Bool)
    (h1 : acc.start_time = acc.end_time) (h2 : acc.cliff_time ≤ now) :
    claim_tokens acc now transferOk =
      Except.error (ClaimErr.code ErrorCode.InvalidVestingPeriod) ∧
    stateAfter acc now transferOk = acc := by
  have hz : satSub64 acc.end_time acc.start_time = 0 := by
    rw [h1, satSub64_self]
  have hc : claim_tokens acc now transferOk =
      Except.error (ClaimErr.code ErrorCode.InvalidVestingPeriod) := by
    unfold claim_tokens
    rw [if_neg (not_lt.mpr h2), if_pos hz]
  refine ⟨hc, ?_⟩
  unfold stateAfter
  rw [hc]

/-- Counterexample to C3 as stated: with `start_time = end_time = 0` but
`cliff_time = 10`, a claim at `now = 5` fails with `ClaimNotAvailableYet`,
not with `InvalidVestingPeriod`, because the cliff check precedes the
degenerate-period check. -/
theorem c3_counterexample :
    claim_tokens ⟨0, 0, 1000, 0, 10⟩ 5 true =
      Except.error (ClaimErr.code ErrorCode.ClaimNotAvailableYet) ∧
    ClaimErr.code ErrorCode.ClaimNotAvailableYet ≠
      ClaimErr.code ErrorCode.InvalidVestingPeriod :=
  ⟨rfl, by decide⟩

/-- Witness for C3 at the degenerate schedule `(7, 7, 1000, cliff 0)` and
`now = 5`. -/
theorem c3_witness :
    claim_tokens ⟨7, 7, 1000, 0, 0⟩ 5 true =
      Except.error (ClaimErr.code ErrorCode.InvalidVestingPeriod) ∧
    stateAfter ⟨7, 7, 1000, 0, 0⟩ 5 true = ⟨7, 7, 1000, 0, 0⟩ :=
  c3_degenerate_schedule ⟨7, 7, 1000, 0, 0⟩ 5 true (by decide) (by decide)

/-- C2 (amended): `time_since_start` and `total_vesting_time` are `i64`
saturating differences: always in the `i64` range, equal to the exact
difference whenever it is representable, and nonnegative exactly when the
subtrahend does not exceed the minuend — so they CAN be negative (for
`now < start_time`, resp. `end_time < start_time`), contrary to the
original max-with-zero reading. -/
theorem c2_saturating_sub_range (a b : Int) (ha : inI64 a) (hb : inI64 b) :
    inI64 (satSub64 a b) ∧ (0 ≤ satSub64 a b ↔ b ≤ a) ∧
    (i64Min ≤ a - b → a - b ≤ i64Max → satSub64 a b = a - b) :=
  ⟨inI64_satSub64 a b, satSub64_nonneg_iff ha hb, fun h1 h2 => satSub64_eq h1 h2⟩

/-- Counterexample to C2 as stated: the saturating difference of
`now = -50` and `start_time = 0` is `-50`, not `max 0 (-50)`; the negative
value is observable in the vesting computation, e.g. a schedule starting
at 10 evaluated at `now = 0` vests `-111`. -/
theorem c2_counterexample :
    satSub64 (-50) 0 = -50 ∧ satSub64 (-50) 0 ≠ max 0 ((-50) - 0) ∧
    satSub64 0 10 = -10 ∧ vested_amount 10 100 1000 0 = Except.ok (-111) :=
  ⟨by decide, by decide, by decide, rfl⟩

/-- Witness for C2 at `a = 5`, `b = 3`. -/
theorem c2_witness : inI64 (satSub64 5 3) ∧ satSub64 5 3 = 5 - 3 :=
  ⟨(c2_saturating_sub_range 5 3 (by decide) (by decide)).1,
    (c2_saturating_sub_range 5 3 (by decide) (by decide)).2.2 (by decide) (by decide)⟩

/-- C5: for a schedule satisfying the data-model invariant
(`0 ≤ total_withdrawn ≤ total_amount ≤ i64::MAX`) with
`start_time < end_time` and `cliff_time ≤ now`, if `now ≥ end_time` then
the vested amount is exactly `total_amount` and the claimable amount is
exactly `total_amount - total_withdrawn`. -/
theorem c5_full_vesting (acc : EmployeeAccount) (now : Int)
    (h1 : acc.start_time < acc.end_time) (h2 : acc.cliff_time ≤ now)
    (h3 : acc.end_time ≤ now) (h4 : 0 ≤ acc.total_withdrawn)
    (h5 : acc.total_withdrawn ≤ acc.total_amount) (h6 : acc.total_amount ≤ i64Max) :
    vested_amount acc.start_time acc.end_time acc.total_amount now =
      Except.ok acc.total_amount ∧
    claimable_amount acc.total_amount acc.total_withdrawn =
      acc.total_amount - acc.total_withdrawn := by
  refine ⟨vested_amount_full h3, ?_⟩
  unfold claimable_amount
  exact satSub64_eq (by have := i64Min_nonpos; omega) (by omega)

/-- Witness for C5 at the schedule `(0, 100, 1000, cliff 0)` with 300
already withdrawn, claimed at `now = 150`. -/
theorem c5_witness :
    vested_amount 0 100 1000 150 = Except.ok 1000 ∧
    claimable_amount 1000 300 = 1000 - 300 :=
  c5_full_vesting ⟨0, 100, 1000, 300, 0⟩ 150 (by decide) (by decide) (by decide)
    (by decide) (by decide) (by decide)

/-- C10: the claimable amount is a signed value that can be negative (here
`cliff_time = -100 ≤ now = -50 < start_time = 0` with positive
`total_amount`); a negative claimable amount passes the `== 0` check, is
cast to `u64` modulo `2 ^ 64` for the transfer (an astronomically large
amount), and on transfer success is added to `total_withdrawn`, decreasing
it below its initial value. -/
theorem c10_negative_claimable :
    vested_amount 0 100 1000 (-50) = Except.ok (-500) ∧
    claimable_amount (-500) 0 = -500 ∧ ((-500 : Int) < 0) ∧
    toU64 (-500) = 2 ^ 64 - 500 ∧
    claim_tokens ⟨0, 100, 1000, 0, -100⟩ (-50) true =
      Except.ok (⟨0, 100, 1000, -500, -100⟩, 18446744073709551116) ∧
    (⟨0, 100, 1000, -500, -100⟩ : EmployeeAccount).total_withdrawn <
      (⟨0, 100, 1000, 0, -100⟩ : EmployeeAccount).total_withdrawn :=
  ⟨rfl, by decide, by decide, by decide, rfl, by decide⟩

/-- C6: for the schedule `start_time = 0`, `end_time = 100`,
`total_amount = 1000`, any `cliff_time ≤ 50`, starting from
`total_withdrawn = 0`: a claim at `now = 50` computes a vested amount of
500 and transfers 500; a subsequent claim at `now = 100` transfers exactly
500 more, for a total of 1000 with no remainder lost to truncation. -/
theorem c6_linear_midpoint (cliff : Int) (hc : cliff ≤ 50) :
    claim_tokens (create_employee_vesting 0 100 1000 cliff) 50 true =
      Except.ok (⟨0, 100, 1000, 500, cliff⟩, 500) ∧
    claim_tokens ⟨0, 100, 1000, 500, cliff⟩ 100 true =
      Except.ok (⟨0, 100, 1000, 1000, cliff⟩, 500) ∧
    vested_amount 0 100 1000 50 = Except.ok 500 ∧
    vested_amount 0 100 1000 100 = Except.ok 1000 := by
  refine ⟨?_, ?_, rfl, rfl⟩
  · show claim_tokens ⟨0, 100, 1000, 0, cliff⟩ 50 true =
      Except.ok (⟨0, 100, 1000, 500, cliff⟩, 500)
    unfold claim_tokens
    rw [if_neg (show ¬ (50 : Int) < cliff by omega)]
    rfl
  · unfold claim_tokens
    rw [if_neg (show ¬ (100 : Int) < cliff by omega)]
    rfl

/-- Witness for C6 at `cliff_time = 0`. -/
theorem c6_witness :
    claim_tokens (create_employee_vesting 0 100 1000 0) 50 true =
      Except.ok (⟨0, 100, 1000, 500, 0⟩, 500) ∧
    claim_tokens ⟨0, 100, 1000, 500, 0⟩ 100 true =
      Except.ok (⟨0, 100, 1000, 1000, 0⟩, 500) :=
  ⟨(c6_linear_midpoint 0 (by decide)).1, (c6_linear_midpoint 0 (by decide)).2.1⟩

/-- C7 (amended): if a claim at time `now` succeeds and the difference
`vested - total_withdrawn` is representable in `i64` (so the saturating
subtraction computing `claimable_amount` did not clamp — automatic in any
state satisfying `0 ≤ total_withdrawn ≤ vested`), then an immediately
repeated claim at the same `now` computes `claimable_amount = 0` and fails
with `NothingToClaim`, leaving state unchanged.  Without the
no-clamping proviso the repeated claim can succeed again (see the
counterexample). -/
theorem c7_replay_idempotence (acc acc2 : EmployeeAccount) (now : Int) (amt : Nat)
    (transferOk2 : Bool) (v : Int)
    (hv : vested_amount acc.start_time acc.end_time acc.total_amount now = Except.ok v)
    (hvin : inI64 v)
    (hlo : i64Min ≤ v - acc.total_withdrawn) (hhi : v - acc.total_withdrawn ≤ i64Max)
    (hok : claim_tokens acc now true = Except.ok (acc2, amt)) :
    claimable_amount v acc2.total_withdrawn = 0 ∧
    claim_tokens acc2 now transferOk2 =
      Except.error (ClaimErr.code ErrorCode.NothingToClaim) ∧
    stateAfter acc2 now transferOk2 = acc2 := by
  obtain ⟨h1, h2, -, v', hv', h3, hacc2, -⟩ := claim_tokens_ok hok
  rw [hv] at hv'
  injection hv' with hvv
  subst hvv
  subst hacc2
  have hclaim : claimable_amount v acc.total_withdrawn = v - acc.total_withdrawn :=
    satSub64_eq hlo hhi
  have hw2 : wrapI64 (acc.total_withdrawn + claimable_amount v acc.total_withdrawn) = v := by
    rw [hclaim]
    have hxv : acc.total_withdrawn + (v - acc.total_withdrawn) = v := by ring
    rw [hxv]
    exact wrapI64_eq hvin
  have hz : claimable_amount v
      ({ acc with total_withdrawn := wrapI64 (acc.total_withdrawn + claimable_amount v acc.total_withdrawn) } : EmployeeAccount).total_withdrawn = 0 := by
    show claimable_amount v (wrapI64 (acc.total_withdrawn + claimable_amount v acc.total_withdrawn)) = 0
    rw [hw2]
    exact satSub64_self v
  have hc : claim_tokens { acc with total_withdrawn := wrapI64 (acc.total_withdrawn + claimable_amount v acc.total_withdrawn) } now transferOk2 =
      Except.error (ClaimErr.code ErrorCode.NothingToClaim) := by
    unfold claim_tokens
    rw [if_neg h1, if_neg h2, hv]
    dsimp only
    rw [if_pos hz]
  refine ⟨hz, hc, ?_⟩
  unfold stateAfter
  rw [hc]

/-- Counterexample to C7 as stated: for the schedule `start_time = 0`,
`end_time = 1`, `total_amount = 1`, `cliff_time = i64::MIN`,
`total_withdrawn = 1` at `now = i64::MIN`, the vested amount is `i64::MIN`
and the saturating subtraction clamps the claimable amount to `i64::MIN`;
the first claim succeeds, and the repeated claim at the same `now`
computes claimable `-1`, so it succeeds again instead of failing with
`NothingToClaim`. -/
theorem c7_counterexample :
    claim_tokens ⟨0, 1, 1, 1, i64Min⟩ i64Min true =
      Except.ok (⟨0, 1, 1, i64Min + 1, i64Min⟩, 2 ^ 63) ∧
    claim_tokens ⟨0, 1, 1, i64Min + 1, i64Min⟩ i64Min true =
      Except.ok (⟨0, 1, 1, i64Min, i64Min⟩, 2 ^ 64 - 1) ∧
    claimable_amount (-(2 ^ 63)) (i64Min + 1) = -1 ∧
    claim_tokens ⟨0, 1, 1, i64Min + 1, i64Min⟩ i64Min true ≠
      Except.error (ClaimErr.code ErrorCode.NothingToClaim) := by
  refine ⟨rfl, rfl, by decide, ?_⟩
  intro h
  exact Except.noConfusion
    ((rfl : claim_tokens ⟨0, 1, 1, i64Min + 1, i64Min⟩ i64Min true =
      Except.ok (⟨0, 1, 1, i64Min, i64Min⟩, 2 ^ 64 - 1)).symm.trans h)

/-- Witness for C7 at the schedule `(0, 100, 1000, cliff 0)` claimed twice
at `now = 50`. -/
theorem c7_witness :
    claimable_amount 500 (⟨0, 100, 1000, 500, 0⟩ : EmployeeAccount).total_withdrawn = 0 ∧
    claim_tokens ⟨0, 100, 1000, 500, 0⟩ 50 false =
      Except.error (ClaimErr.code ErrorCode.NothingToClaim) ∧
    stateAfter ⟨0, 100, 1000, 500, 0⟩ 50 false = ⟨0, 100, 1000, 500, 0⟩ :=
  c7_replay_idempotence ⟨0, 100, 1000, 0, 0⟩ ⟨0, 100, 1000, 500, 0⟩ 50 500 false 500
    rfl (by decide) (by decide) (by decide) rfl

/-- C8 (amended): in the partial-vesting branch
(`cliff_time ≤ now < end_time`, `end_time ≠ start_time`), if
`total_amount * time_since_start` leaves the signed 64-bit range then
`claim_tokens` fails with `CalculationOverflow` and the state is
unchanged; if it does not, the vested amount is the product divided by
`total_vesting_time` truncating toward zero — except in the one case
`product = i64::MIN` and `total_vesting_time = -1`, where the `i64`
division itself overflows and the program aborts (see the
counterexample). -/
theorem c8_overflow_guard (acc : EmployeeAccount) (now : Int) (transferOk : Bool)
    (h1 : acc.cliff_time ≤ now) (h2 : now < acc.end_time)
    (h3 : acc.end_time ≠ acc.start_time) :
    (¬ inI64 (acc.total_amount * satSub64 now acc.start_time) →
      claim_tokens acc now transferOk =
        Except.error (ClaimErr.code ErrorCode.CalculationOverflow) ∧
      stateAfter acc now transferOk = acc) ∧
    (inI64 (acc.total_amount * satSub64 now acc.start_time) →
      ¬ (acc.total_amount * satSub64 now acc.start_time = i64Min ∧
          satSub64 acc.end_time acc.start_time = -1) →
      vested_amount acc.start_time acc.end_time acc.total_amount now =
        Except.ok ((acc.total_amount * satSub64 now acc.start_time).tdiv
          (satSub64 acc.end_time acc.start_time))) := by
  have hz : satSub64 acc.end_time acc.start_time ≠ 0 :=
    fun h => h3 (satSub64_eq_zero_iff.mp h)
  constructor
  · intro hm
    have hov := vested_amount_overflow (not_le.mpr h2) hm
    have hc : claim_tokens acc now transferOk =
        Except.error (ClaimErr.code ErrorCode.CalculationOverflow) := by
      unfold claim_tokens
      rw [if_neg (not_lt.mpr h1), if_neg hz, hov]
    exact ⟨hc, by unfold stateAfter; rw [hc]⟩
  · intro hm hd
    refine vested_amount_div (not_le.mpr h2) hm ?_
    rintro (h | h)
    · exact hz h
    · exact hd h

/-- Counterexample to C8 as stated: for the schedule `start_time = 1`,
`end_time = 0`, `total_amount = 1`, `cliff_time = i64::MIN` at
`now = i64::MIN`, the checked multiplication succeeds with product
`i64::MIN` while `total_vesting_time = -1`, and instead of producing a
truncated quotient the division overflows and the program aborts. -/
theorem c8_counterexample :
    checked_mul 1 (satSub64 i64Min 1) = some i64Min ∧
    satSub64 0 1 = -1 ∧
    claim_tokens ⟨1, 0, 1, 0, i64Min⟩ i64Min true = Except.error ClaimErr.divAbort :=
  ⟨by decide, by decide, rfl⟩

/-- Witness for C8 at the schedule `(0, 100, 1000, cliff 0)` and
`now = 50`. -/
theorem c8_witness :
    vested_amount 0 100 1000 50 =
      Except.ok ((1000 * satSub64 50 0).tdiv (satSub64 100 0)) :=
  (c8_overflow_guard ⟨0, 100, 1000, 0, 0⟩ 50 true (by decide) (by decide)
    (by decide)).2 (by decide) (by decide)

/-- C9: `claim_tokens` is atomic with respect to the transfer: when the
external transfer fails the call never returns success and the schedule
state is unchanged; `total_withdrawn` is updated (by `claimable_amount`)
only when the call succeeds, which requires the transfer to succeed; and
every error path leaves the schedule unchanged. -/
theorem c9_transfer_atomicity (acc : EmployeeAccount) (now : Int) :
    (∀ r, claim_tokens acc now false ≠ Except.ok r) ∧
    stateAfter acc now false = acc ∧
    (¬ now < acc.cliff_time → satSub64 acc.end_time acc.start_time ≠ 0 →
      ∀ v, vested_amount acc.start_time acc.end_time acc.total_amount now = Except.ok v →
        claimable_amount v acc.total_withdrawn ≠ 0 →
        claim_tokens acc now false = Except.error ClaimErr.transferFailed) ∧
    (∀ transferOk acc2 amt, claim_tokens acc now transferOk = Except.ok (acc2, amt) →
      transferOk = true ∧
      ∃ v, vested_amount acc.start_time acc.end_time acc.total_amount now = Except.ok v ∧
        acc2.total_withdrawn =
          wrapI64 (acc.total_withdrawn + claimable_amount v acc.total_withdrawn) ∧
        amt = toU64 (claimable_amount v acc.total_withdrawn)) ∧
    (∀ transferOk err, claim_tokens acc now transferOk = Except.error err →
      stateAfter acc now transferOk = acc) := by
  refine ⟨?_, ?_, ?_, ?_, ?_⟩
  · intro r h
    obtain ⟨a2, amt⟩ := r
    exact Bool.noConfusion (claim_tokens_ok h).2.2.1
  · rcases stateAfter_spec acc now false with h | ⟨-, hb, -⟩
    · exact h
    · exact Bool.noConfusion hb
  · intro h1 h2 v hv h3
    unfold claim_tokens
    rw [if_neg h1, if_neg h2, hv]
    dsimp only
    rw [if_neg h3, if_neg (by decide : ¬ (false = true))]
  · intro transferOk acc2 amt h
    obtain ⟨-, -, hb, v, hv, -, hacc2, hamt⟩ := claim_tokens_ok h
    refine ⟨hb, v, hv, ?_, hamt⟩
    rw [hacc2]
  · intro transferOk err h
    unfold stateAfter
    rw [h]

/-- Witness for C9 at the schedule `(0, 100, 1000, cliff 0)` and
`now = 50`. -/
theorem c9_witness :
    stateAfter ⟨0, 100, 1000, 0, 0⟩ 50 false = ⟨0, 100, 1000, 0, 0⟩ ∧
    claim_tokens ⟨0, 100, 1000, 0, 0⟩ 50 false = Except.error ClaimErr.transferFailed ∧
    (true = true ∧
      ∃ v, vested_amount 0 100 1000 50 = Except.ok v ∧
        (⟨0, 100, 1000, 500, 0⟩ : EmployeeAccount).total_withdrawn =
          wrapI64 (0 + claimable_amount v 0) ∧
        (500 : Nat) = toU64 (claimable_amount v 0)) :=
  ⟨(c9_transfer_atomicity ⟨0, 100, 1000, 0, 0⟩ 50).2.1,
    (c9_transfer_atomicity ⟨0, 100, 1000, 0, 0⟩ 50).2.2.1 (by decide) (by decide)
      500 rfl (by decide),
    (c9_transfer_atomicity ⟨0, 100, 1000, 0, 0⟩ 50).2.2.2.1 true
      ⟨0, 100, 1000, 500, 0⟩ 500 rfl⟩

/-- C1 (amended): for schedules whose parameters are representable `i64`
values with `0 ≤ total_amount` and `start_time ≤ cliff_time` (so that any
permitted claim happens at or after `start_time`), and for claims made at
non-decreasing times: `total_withdrawn` starts at 0, never decreases from
claim to claim, never exceeds `total_amount`, and after any prefix of
claims stays below the vested amount at every subsequent permitted time.
Without the added parameter hypotheses a claim can decrease
`total_withdrawn` (see the counterexample). -/
theorem c1_total_withdrawn_invariant (s e tot c : Int) (events : List (Int × Bool))
    (hs : inI64 s) (he : inI64 e) (htot : inI64 tot) (hc : inI64 c)
    (h0 : 0 ≤ tot) (hsc : s ≤ c)
    (hchain : List.Chain' (· ≤ ·) (events.map Prod.fst)) :
    (create_employee_vesting s e tot c).total_withdrawn = 0 ∧
    ∀ n : Nat,
      0 ≤ (runClaims (create_employee_vesting s e tot c) (events.take n)).total_withdrawn ∧
      (runClaims (create_employee_vesting s e tot c) (events.take n)).total_withdrawn ≤ tot ∧
      (runClaims (create_employee_vesting s e tot c) (events.take n)).total_withdrawn ≤
        (runClaims (create_employee_vesting s e tot c) (events.take (n + 1))).total_withdrawn ∧
      ∀ t v, (∀ x ∈ (events.take n).map Prod.fst, x ≤ t) → c ≤ t →
        vested_amount s e tot t = Except.ok v →
        (runClaims (create_employee_vesting s e tot c) (events.take n)).total_withdrawn ≤ v ∧
        v ≤ tot := by
  have hWF : WFparams (create_employee_vesting s e tot c) := ⟨hs, he, htot, hc, h0, hsc⟩
  refine ⟨rfl, ?_⟩
  cases events with
  | nil =>
    intro n
    simp only [List.take_nil, runClaims]
    refine ⟨le_refl 0, h0, le_refl 0, ?_⟩
    intro t v _ hct hv
    exact ⟨(vested_bounds h0 (le_trans hsc hct) hv).1,
      (vested_bounds h0 (le_trans hsc hct) hv).2⟩
  | cons p rest =>
    obtain ⟨t1, b1⟩ := p
    have hchain2 : List.Chain (· ≤ ·) t1 (((t1, b1) :: rest).map Prod.fst) := by
      rw [List.map_cons]
      exact List.chain_cons.mpr ⟨le_refl t1, hchain⟩
    have hInv := InvP_create s e tot c h0 hsc t1
    have haux := runClaims_aux ((t1, b1) :: rest) (create_employee_vesting s e tot c) t1
      hWF hInv hchain2
    intro n
    refine ⟨(haux n).1, (haux n).2.1, (haux n).2.2.1, ?_⟩
    intro t v hmem hct hv
    refine ⟨?_, (vested_bounds h0 (le_trans hsc hct) hv).2⟩
    cases n with
    | zero => exact (vested_bounds h0 (le_trans hsc hct) hv).1
    | succ m =>
      refine (haux (m + 1)).2.2.2 t v hmem ?_ hct hv
      exact hmem t1 (by rw [List.take_succ_cons, List.map_cons]; exact List.mem_cons_self _ _)

/-- Counterexample to C1 as stated: for the schedule `start_time = 0`,
`end_time = 100`, `total_amount = 1000`, `cliff_time = -100`,
`total_withdrawn` starts at 0 and a successful claim at `now = -50`
DECREASES it to `-500`. -/
theorem c1_counterexample :
    (create_employee_vesting 0 100 1000 (-100)).total_withdrawn = 0 ∧
    (stateAfter (create_employee_vesting 0 100 1000 (-100)) (-50) true).total_withdrawn = -500 ∧
    (stateAfter (create_employee_vesting 0 100 1000 (-100)) (-50) true).total_withdrawn <
      (create_employee_vesting 0 100 1000 (-100)).total_withdrawn :=
  ⟨rfl, rfl, by decide⟩

/-- Witness for C1 at the schedule `(0, 100, 1000, cliff 0)` with claims
at times 50 and 100. -/
theorem c1_witness :
    (create_employee_vesting 0 100 1000 0).total_withdrawn = 0 ∧
    0 ≤ (runClaims (create_employee_vesting 0 100 1000 0)
      ([((50 : Int), true), ((100 : Int), true)].take 1)).total_withdrawn ∧
    (runClaims (create_employee_vesting 0 100 1000 0)
      ([((50 : Int), true), ((100 : Int), true)].take 1)).total_withdrawn ≤ 1000 ∧
    (runClaims (create_employee_vesting 0 100 1000 0)
      ([((50 : Int), true), ((100 : Int), true)].take 1)).total_withdrawn ≤
      (runClaims (create_employee_vesting 0 100 1000 0)
        ([((50 : Int), true), ((100 : Int), true)].take 2)).total_withdrawn :=
  ⟨(c1_total_withdrawn_invariant 0 100 1000 0 [(50, true), (100, true)] (by decide)
      (by decide) (by decide) (by decide) (by decide) (by decide)
      (by exact List.Chain.cons (by decide) List.Chain.nil)).1,
    ((c1_total_withdrawn_invariant 0 100 1000 0 [(50, true), (100, true)] (by decide)
      (by decide) (by decide) (by decide) (by decide) (by decide)
      (by exact List.Chain.cons (by decide) List.Chain.nil)).2 1).1,
    ((c1_total_withdrawn_invariant 0 100 1000 0 [(50, true), (100, true)] (by decide)
      (by decide) (by decide) (by decide) (by decide) (by decide)
      (by exact List.Chain.cons (by decide) List.Chain.nil)).2 1).2.1,
    ((c1_total_withdrawn_invariant 0 100 1000 0 [(50, true), (100, true)] (by decide)
      (by decide) (by decide) (by decide) (by decide) (by decide)
      (by exact List.Chain.cons (by decide) List.Chain.nil)).2 1).2.2.1⟩
